import Mathlib

/- Shallow embedding of the Adaptive Crop Window Engine of
   python/crop_calculator.py and of the keyframe-interpolation pass of
   python/main.py.  Python numbers (int and float) are modelled as exact
   rationals; numpy real-valued math (np.sqrt) is idealized over the reals.
   Python int() truncates toward zero. -/

namespace Reframer

/-- Python int() truncation toward zero, on rationals. -/
def pyInt (q : ℚ) : ℤ := if 0 ≤ q then ⌊q⌋ else ⌈q⌉

/-- Python int() truncation toward zero, on reals (numpy float math idealized). -/
noncomputable def pyIntR (r : ℝ) : ℤ := if 0 ≤ r then ⌊r⌋ else ⌈r⌉

/-- Model of the Python values that can reach the crop calculator: numbers
(int and float as exact rationals), strings, lists, string-keyed dicts and
None. -/
inductive PyVal where
  | num (q : ℚ)
  | str (s : String)
  | list (l : List PyVal)
  | dict (d : List (String × PyVal))
  | nil

/-- Lookup in a dict value; first binding wins (Python dicts have unique keys). -/
def dictFind (d : List (String × PyVal)) (k : String) : Option PyVal :=
  (d.find? (fun p => p.1 == k)).map (·.2)

/-- A Python int or float, as a rational. -/
def asNum : PyVal → Option ℚ
  | .num q => some q
  | _ => none

/-- crop_calculator.py lines 100-103: a dict input is replaced by the list of
its values, any other non-list input by the empty list. -/
def coerceObjects : PyVal → List PyVal
  | .dict d => d.map (·.2)
  | .list l => l
  | _ => []

/-- crop_calculator.py lines 107-122: an entry survives validation iff it is a
dict whose "box" value is a 4-element list of numbers with positive width and
positive height. -/
def validObject (o : PyVal) : Bool :=
  match o with
  | .dict d =>
    match dictFind d "box" with
    | some (.list [x, y, w, h]) =>
      match asNum x, asNum y, asNum w, asNum h with
      | some _, some _, some wq, some hq => decide (0 < wq) && decide (0 < hq)
      | _, _, _, _ => false
    | _ => false
  | _ => false

/-- crop_calculator.py lines 99-124: the validation step of calculate(). -/
def validateObjects (v : PyVal) : List PyVal :=
  (coerceObjects v).filter validObject

/-- crop_calculator.py lines 302-325 (validate_crop_window).  Every value of
the model is numeric, so the isinstance checks always pass. -/
def validate_crop_window (cw : List ℚ) (fw fh : ℚ) : Bool :=
  match cw with
  | [x, y, w, h] =>
    decide (0 < w) && decide (0 < h) &&
      decide (0 ≤ x) && decide (0 ≤ y) && decide (x + w ≤ fw) && decide (y + h ≤ fh)
  | _ => false

/-- crop_calculator.py lines 441-455 (get_center_crop). -/
def get_center_crop (tr fw fh : ℚ) : List ℚ :=
  let cw0 : ℚ := ((pyInt (fh * tr) : ℤ) : ℚ)
  let cw : ℚ := if fw < cw0 then fw else cw0
  let ch : ℚ := if fw < cw0 then ((pyInt (fw / tr) : ℤ) : ℚ) else fh
  [((pyInt ((fw - cw) / 2) : ℤ) : ℚ), ((pyInt ((fh - ch) / 2) : ℤ) : ℚ), cw, ch]

/-- crop_calculator.py lines 419-431 (smooth_transition).  Python unpacks both
rectangles into exactly 4 fields; any other shape raises ValueError, which
calculate() catches, keeping the unsmoothed crop (the caller handles `none`). -/
def smooth_transition (hw : ℚ) (prev cur : List ℚ) : Option (List ℚ) :=
  match prev, cur with
  | [px, py, pw, ph], [cx, cy, cw, ch] =>
    some [((pyInt (px * hw + cx * (1 - hw)) : ℤ) : ℚ),
          ((pyInt (py * hw + cy * (1 - hw)) : ℤ) : ℚ),
          ((pyInt (pw * hw + cw * (1 - hw)) : ℤ) : ℚ),
          ((pyInt (ph * hw + ch * (1 - hw)) : ℤ) : ℚ)]
  | _, _ => none

/-- Configuration plus rolling state of a CropCalculator instance
(crop_calculator.py lines 9-78).  Members that cannot influence any
computation reachable with frame=None (face cascade, saliency detector,
debug logging, input_video_path) are omitted. -/
structure CropCalculator where
  target_ratio : ℚ
  padding_ratio : ℚ
  size_weight : ℚ
  center_weight : ℚ
  motion_weight : ℚ
  history_weight : ℚ
  saliency_weight : ℚ
  weighted_center : Bool
  blend_saliency : Bool
  class_weights : List (String × ℚ)
  prev_crop_window : Option (List ℚ)
  prev_weighted_center : Option (ℝ × ℝ)

/-- crop_calculator.py lines 56-67: the default class-weight table. -/
def defaultClassWeights : List (String × ℚ) :=
  [("person", 40), ("face", 40), ("dog", 30), ("cat", 30), ("sports ball", 20),
   ("bicycle", 10), ("motorcycle", 10), ("car", 10), ("bird", 10), ("default", 1/2)]

/-- A freshly constructed CropCalculator with the constructor defaults
(the float defaults 0.1, 0.4, 0.3, 0.7 idealized as the stated rationals;
9/16 is exact in binary floating point). -/
def initCalculator : CropCalculator :=
  { target_ratio := 9/16, padding_ratio := 1/10, size_weight := 2/5,
    center_weight := 3/10, motion_weight := 3/10, history_weight := 7/10,
    saliency_weight := 2/5, weighted_center := false, blend_saliency := false,
    class_weights := defaultClassWeights,
    prev_crop_window := none, prev_weighted_center := none }

/-- Lookup in a class-weight table. -/
def lookupStr (w : List (String × ℚ)) (s : String) : Option ℚ :=
  (w.find? (fun p => p.1 == s)).map (·.2)

/-- crop_calculator.py line 392: class_weights.get(class_name,
class_weights["default"]).  Python evaluates the fallback lookup first
(KeyError when "default" is missing), then hashes class_name (TypeError on
list or dict keys); a hashable non-string key misses every string key and
takes the default weight. -/
def classWeightOf (w : List (String × ℚ)) (cn : PyVal) : Except Unit ℚ :=
  match lookupStr w "default" with
  | none => .error ()
  | some d =>
    match cn with
    | .list _ => .error ()
    | .dict _ => .error ()
    | .str s => .ok ((lookupStr w s).getD d)
    | _ => .ok d

/-- Subscription obj[k]: KeyError or TypeError become the error value. -/
def pyIndex (o : PyVal) (k : String) : Except Unit PyVal :=
  match o with
  | .dict d =>
    match dictFind d k with
    | some v => .ok v
    | none => .error ()
  | _ => .error ()

/-- obj.get(k, dflt); only reached on dict objects in the modelled paths. -/
def pyGet (o : PyVal) (k : String) (dflt : PyVal) : PyVal :=
  match o with
  | .dict d => (dictFind d k).getD dflt
  | _ => dflt

/-- box[0]..box[3] as numbers.  Validated boxes are exactly 4-element numeric
lists; anything else raises inside the importance try-block. -/
def boxNums (b : PyVal) : Option (ℚ × ℚ × ℚ × ℚ) :=
  match b with
  | .list [x, y, w, h] =>
    match asNum x, asNum y, asNum w, asNum h with
    | some xq, some yq, some wq, some hq => some (xq, yq, wq, hq)
    | _, _, _, _ => none
  | _ => none

/-- crop_calculator.py lines 385-417 (calculate_importance), idealized over
the reals (np.sqrt; the float literals 1.5 and 1.2 as 3/2 and 6/5).  Any
Python exception in the body is the error value: a missing or malformed box,
an unhashable class_name, a non-numeric confidence, or a zero frame area
(ZeroDivisionError at size / frame_area). -/
noncomputable def calculate_importance (c : CropCalculator) (obj : PyVal)
    (fw fh : ℚ) : Except Unit ℝ :=
  match pyIndex obj "box" with
  | .error _ => .error ()
  | .ok box =>
    match classWeightOf c.class_weights (pyGet obj "class_name" (.str "default")) with
    | .error _ => .error ()
    | .ok cwq =>
      match boxNums box with
      | none => .error ()
      | some (x, y, w, h) =>
        if fw * fh = 0 then .error ()
        else
          match asNum (pyGet obj "confidence" (.num 1)) with
          | none => .error ()
          | some conf =>
            let size_factor : ℝ := ((w * h : ℚ) : ℝ) / ((fw * fh : ℚ) : ℝ)
            let max_distance : ℝ := Real.sqrt (((fw : ℝ) / 2) ^ 2 + ((fh : ℝ) / 2) ^ 2)
            let distance : ℝ := Real.sqrt
              (((fw : ℝ) / 2 - ((x + w / 2 : ℚ) : ℝ)) ^ 2 +
                ((fh : ℝ) / 2 - ((y + h / 2 : ℚ) : ℝ)) ^ 2)
            let center_factor : ℝ := 1 - distance / max_distance
            .ok ((cwq : ℝ) * (3 / 2) * (conf : ℝ) *
              ((c.size_weight : ℝ) * size_factor * (6 / 5) +
                (c.center_weight : ℝ) * center_factor))

/-- calculate() lines 177-183: a scoring failure yields importance 0.1. -/
noncomputable def importance_or_fallback (c : CropCalculator) (obj : PyVal)
    (fw fh : ℚ) : ℝ :=
  match calculate_importance c obj fw fh with
  | .ok v => v
  | .error _ => 1 / 10

/-- get_center_x and get_center_y (lines 433-439) applied to obj["box"];
`none` marks the exception path that the weighted-center try-block catches. -/
def centerXY (o : PyVal) : Option (ℚ × ℚ) :=
  match pyIndex o "box" with
  | .ok b =>
    match boxNums b with
    | some (x, y, w, h) => some (x + w / 2, y + h / 2)
    | none => none
  | .error _ => none

/-- sorted(objects, key=importance, reverse=True) (line 186): a stable
mergesort putting larger importance first. -/
noncomputable def sortByImportance (l : List (PyVal × ℝ)) : List (PyVal × ℝ) :=
  l.mergeSort (fun a b => @decide (b.2 ≤ a.2) (Classical.propDecidable _))

/-- Lines 194-195: the importance-weighted sums of the object centers; `none`
when any center extraction raises (caught: frame center). -/
noncomputable def weightedSums : List (PyVal × ℝ) → Option (ℝ × ℝ)
  | [] => some (0, 0)
  | (o, imp) :: rest =>
    match centerXY o, weightedSums rest with
    | some (cx, cy), some (sx, sy) => some ((cx : ℝ) * imp + sx, (cy : ℝ) * imp + sy)
    | _, _ => none

/-- calculate() lines 177-239 with frame=None (so saliency_center is None and
the saliency blend at lines 216-226 is skipped): importance scoring, sorting,
weighted or first-object center, then history blending, producing the
attention point that also becomes the new prev_weighted_center. -/
noncomputable def attention_point (c : CropCalculator) (objs : List PyVal)
    (fw fh : ℚ) : ℝ × ℝ :=
  let scored := objs.map (fun o => (o, importance_or_fallback c o fw fh))
  let sorted := sortByImportance scored
  let base : ℝ × ℝ :=
    match sorted with
    | [] => ((fw : ℝ) / 2, (fh : ℝ) / 2)
    | first :: _ =>
      if c.weighted_center then
        let total : ℝ := (sorted.map (·.2)).sum
        if 0 < total then
          match weightedSums sorted with
          | some (sx, sy) => (sx / total, sy / total)
          | none => ((fw : ℝ) / 2, (fh : ℝ) / 2)
        else
          match centerXY first.1 with
          | some (cx, cy) => ((cx : ℝ), (cy : ℝ))
          | none => ((fw : ℝ) / 2, (fh : ℝ) / 2)
      else
        match centerXY first.1 with
        | some (cx, cy) => ((cx : ℝ), (cy : ℝ))
        | none => ((fw : ℝ) / 2, (fh : ℝ) / 2)
  match c.prev_weighted_center with
  | some (px, py) =>
    (px * (c.history_weight : ℝ) + base.1 * (1 - (c.history_weight : ℝ)),
      py * (c.history_weight : ℝ) + base.2 * (1 - (c.history_weight : ℝ)))
  | none => base

/-- calculate() lines 241-263: ratio-correct dimensions clamped to the frame
(with the max(1, _) floors), then the window centered on the attention point
and clamped inside the frame. -/
noncomputable def synth_crop (tr fw fh : ℚ) (wx wy : ℝ) : List ℚ :=
  let cw0 : ℚ := ((pyInt (fh * tr) : ℤ) : ℚ)
  let cw1 : ℚ := if fw < cw0 then fw else cw0
  let ch1 : ℚ := if fw < cw0 then ((pyInt (fw / tr) : ℤ) : ℚ) else fh
  let cw : ℚ := max 1 cw1
  let ch : ℚ := max 1 ch1
  let x0 : ℚ := ((pyIntR (wx - (cw : ℝ) / 2) : ℤ) : ℚ)
  let y0 : ℚ := ((pyIntR (wy - (ch : ℝ) / 2) : ℤ) : ℚ)
  [max 0 (min x0 (fw - cw)), max 0 (min y0 (fh - ch)), cw, ch]

/-- calculate() lines 177-294, the branch taken when validation kept at least
one object: attention point, crop synthesis, rectangle smoothing against the
previous window, final validation with centered fallback, state update. -/
noncomputable def calc_with_objects (c : CropCalculator) (objs : List PyVal)
    (fw fh : ℚ) : List ℚ × CropCalculator :=
  let p := attention_point c objs fw fh
  let c1 := { c with prev_weighted_center := some p }
  let cur0 := synth_crop c.target_ratio fw fh p.1 p.2
  let cur1 :=
    match c.prev_crop_window with
    | some pc => (smooth_transition c.history_weight pc cur0).getD cur0
    | none => cur0
  let fin := if validate_crop_window cur1 fw fh then cur1
    else get_center_crop c.target_ratio fw fh
  (fin, { c1 with prev_crop_window := some fin })

/-- crop_calculator.py lines 80-300 (calculate) with frame=None: no face
detection, no saliency and no debug I/O.  Returns the crop window together
with the updated engine state. -/
noncomputable def calculate (c : CropCalculator) (objects : PyVal)
    (fw fh : ℚ) : List ℚ × CropCalculator :=
  if fw ≤ 0 ∨ fh ≤ 0 then
    (get_center_crop c.target_ratio (max 1 fw) (max 1 fh), c)
  else
    match validateObjects objects with
    | [] =>
      match c.prev_crop_window with
      | some pc =>
        if pc.length = 4 ∧ 0 < pc.getD 2 0 ∧ 0 < pc.getD 3 0 then (pc, c)
        else (get_center_crop c.target_ratio fw fh, c)
      | none => (get_center_crop c.target_ratio fw fh, c)
    | o :: rest => calc_with_objects c (o :: rest) fw fh

/-- main.py lines 254-255 with line 265: prev_idx[-1], the nearest keyframe
index below i (the keyframe list is ascending). -/
def findPrevKf (kfs : List ℕ) (i : ℕ) : Option ℕ :=
  (kfs.filter (fun k => decide (k < i))).getLast?

/-- main.py lines 254-255 with line 266: next_idx[0], the nearest keyframe
index above i. -/
def findNextKf (kfs : List ℕ) (i : ℕ) : Option ℕ :=
  (kfs.filter (fun k => decide (i < k))).head?

/-- main.py lines 273-276: componentwise linear blend of two windows,
truncated toward zero by int(). -/
def lerpWin (pw nw : List ℚ) (alpha : ℚ) : List ℚ :=
  List.zipWith (fun p n => ((pyInt (p * (1 - alpha) + n * alpha) : ℤ) : ℚ)) pw nw

/-- One iteration of the phase-3 loop (main.py lines 249-276) at index i.
The loop mutates crop_windows in place, so later iterations can read values
written by earlier ones. -/
def interpStep (kfs : List ℕ) (arr : List (Option (List ℚ))) (i : ℕ) :
    List (Option (List ℚ)) :=
  match arr.getD i none with
  | some _ => arr
  | none =>
    match findPrevKf kfs i, findNextKf kfs i with
    | some p, none => arr.set i (arr.getD p none)
    | none, some n => arr.set i (arr.getD n none)
    | some p, some n =>
      match arr.getD p none, arr.getD n none with
      | some pw, some nw =>
        arr.set i (some (lerpWin pw nw (((i : ℚ) - (p : ℚ)) / ((n : ℚ) - (p : ℚ)))))
      | _, _ => arr
    | none, none => arr

/-- main.py lines 244-276: the interpolation loop runs only when more than
one keyframe holds a computed window. -/
def interpolatePass (kfs : List ℕ) (arr : List (Option (List ℚ))) :
    List (Option (List ℚ)) :=
  if 1 < (kfs.filter (fun k => (arr.getD k none).isSome)).length then
    (List.range arr.length).foldl (interpStep kfs) arr
  else arr

/-- main.py lines 278-289: every remaining gap is filled with the centered
fallback crop (the inline computation at lines 282-289 is the same formula
as get_center_crop). -/
def densify (kfs : List ℕ) (arr : List (Option (List ℚ))) (tr fw fh : ℚ) :
    List (Option (List ℚ)) :=
  (interpolatePass kfs arr).map (fun e =>
    match e with
    | some w => some w
    | none => some (get_center_crop tr fw fh))

/-- The notion of a conforming object in the words of the spec (section 4.1):
a dict whose "box" is a 4-element list of numbers with positive width and
positive height. -/
def SpecValidObject (o : PyVal) : Prop :=
  ∃ d x y w h, o = PyVal.dict d ∧
    dictFind d "box" = some (PyVal.list [.num x, .num y, .num w, .num h]) ∧
    0 < w ∧ 0 < h

/-- Euclidean distance between two rational points, in the words of the spec
(section 4.3). -/
noncomputable def euclid (a b : ℚ × ℚ) : ℝ :=
  Real.sqrt (((a.1 : ℝ) - (b.1 : ℝ)) ^ 2 + ((a.2 : ℝ) - (b.2 : ℝ)) ^ 2)

/-- A concrete detected object used by the witnesses (the spec section 8
example). -/
def sampleObject : PyVal :=
  .dict [("box", .list [.num 800, .num 400, .num 200, .num 300]),
    ("class_name", .str "person"), ("confidence", .num (9/10))]

/-- A calculator state carrying a stored previous crop window, used by the
witnesses. -/
def witnessCalc : CropCalculator :=
  { initCalculator with prev_crop_window := some [10, 20, 30, 40] }

/- Helper lemmas about list update and the phase-3 loop. -/

theorem getD_set_of_ne {α : Type} (l : List (Option α)) (i j : ℕ) (v : Option α)
    (h : i ≠ j) : (l.set i v).getD j none = l.getD j none := by
  induction l generalizing i j with
  | nil => rfl
  | cons a t ih =>
    cases i with
    | zero =>
      cases j with
      | zero => exact absurd rfl h
      | succ j => simp [List.set]
    | succ i =>
      cases j with
      | zero => simp [List.set]
      | succ j =>
        simp only [List.set_cons_succ, List.getD_cons_succ]
        exact ih i j (fun e => h (by rw [e]))

theorem getD_set_self_of_lt {α : Type} (l : List (Option α)) (i : ℕ) (v : Option α)
    (h : i < l.length) : (l.set i v).getD i none = v := by
  induction l generalizing i with
  | nil => simp at h
  | cons a t ih =>
    cases i with
    | zero => rfl
    | succ i =>
      simp only [List.set_cons_succ, List.getD_cons_succ]
      exact ih i (by simpa using h)

theorem getD_some_lt_length {α : Type} (l : List (Option α)) (i : ℕ) (w : α)
    (h : l.getD i none = some w) : i < l.length := by
  by_contra hn
  rw [List.getD_eq_default _ _ (Nat.le_of_not_lt hn)] at h
  exact Option.noConfusion h

theorem interpStep_length (kfs : List ℕ) (arr : List (Option (List ℚ))) (i : ℕ) :
    (interpStep kfs arr i).length = arr.length := by
  unfold interpStep
  split
  · rfl
  · split
    · exact List.length_set ..
    · exact List.length_set ..
    · split
      · exact List.length_set ..
      · rfl
    · rfl

theorem interpStep_getD_of_ne (kfs : List ℕ) (arr : List (Option (List ℚ)))
    (i j : ℕ) (h : i ≠ j) :
    (interpStep kfs arr i).getD j none = arr.getD j none := by
  unfold interpStep
  split
  · rfl
  · split
    · exact getD_set_of_ne _ _ _ _ h
    · exact getD_set_of_ne _ _ _ _ h
    · split
      · exact getD_set_of_ne _ _ _ _ h
      · rfl
    · rfl

theorem interpStep_of_some (kfs : List ℕ) (arr : List (Option (List ℚ)))
    (i : ℕ) (w : List ℚ) (h : arr.getD i none = some w) :
    interpStep kfs arr i = arr := by
  unfold interpStep
  rw [h]

theorem foldl_interp_length (kfs : List ℕ) (L : List ℕ) :
    ∀ arr : List (Option (List ℚ)),
      (L.foldl (interpStep kfs) arr).length = arr.length := by
  induction L with
  | nil => intro arr; rfl
  | cons i L ih =>
    intro arr
    rw [List.foldl_cons, ih (interpStep kfs arr i), interpStep_length]

theorem foldl_interp_getD_of_notMem (kfs : List ℕ) (L : List ℕ) :
    ∀ (arr : List (Option (List ℚ))) (j : ℕ), j ∉ L →
      (L.foldl (interpStep kfs) arr).getD j none = arr.getD j none := by
  induction L with
  | nil => intro arr j _; rfl
  | cons i L ih =>
    intro arr j hj
    rw [List.foldl_cons, ih (interpStep kfs arr i) j (fun h => hj (List.mem_cons_of_mem _ h)),
      interpStep_getD_of_ne kfs arr i j (fun h => hj (h ▸ List.mem_cons_self i L))]

theorem foldl_interp_preserves_some (kfs : List ℕ) (L : List ℕ) :
    ∀ (arr : List (Option (List ℚ))) (j : ℕ) (w : List ℚ),
      arr.getD j none = some w →
      (L.foldl (interpStep kfs) arr).getD j none = some w := by
  induction L with
  | nil => intro arr j w h; exact h
  | cons i L ih =>
    intro arr j w h
    rw [List.foldl_cons]
    apply ih
    rcases Decidable.eq_or_ne i j with rfl | hne
    · rw [interpStep_of_some kfs arr i w h]; exact h
    · rw [interpStep_getD_of_ne kfs arr i j hne]; exact h

theorem interpLoop_getD_eq (kfs : List ℕ) (arr : List (Option (List ℚ))) (i : ℕ)
    (hi : i < arr.length) :
    ((List.range arr.length).foldl (interpStep kfs) arr).getD i none
      = (interpStep kfs ((List.range i).foldl (interpStep kfs) arr) i).getD i none := by
  obtain ⟨m, hm⟩ : ∃ m, arr.length = (i + 1) + m :=
    ⟨arr.length - (i + 1), by omega⟩
  rw [hm, List.range_add, List.foldl_append]
  rw [foldl_interp_getD_of_notMem]
  · rw [List.range_succ, List.foldl_append, List.foldl_cons, List.foldl_nil]
  · intro hmem
    obtain ⟨k, _, hk⟩ := List.mem_map.mp hmem
    omega

/- Helper lemmas about sorted keyframe lists and nearest-keyframe search. -/

theorem sorted_getLast?_of_max {l : List ℕ} (hs : List.Sorted (· < ·) l) {a : ℕ}
    (ha : a ∈ l) (hmax : ∀ x ∈ l, x ≤ a) : l.getLast? = some a := by
  induction l with
  | nil => cases ha
  | cons b t ih =>
    cases t with
    | nil =>
      rcases List.mem_singleton.mp ha with rfl
      rfl
    | cons c t2 =>
      rw [List.getLast?_cons_cons]
      rcases List.mem_cons.mp ha with rfl | hmem
      · have hbc : a < c := (List.sorted_cons.mp hs).1 c (List.mem_cons_self c t2)
        have : c ≤ a := hmax c (List.mem_cons_of_mem _ (List.mem_cons_self c t2))
        omega
      · exact ih (List.sorted_cons.mp hs).2 hmem
          (fun x hx => hmax x (List.mem_cons_of_mem _ hx))

theorem sorted_head?_of_min {l : List ℕ} (hs : List.Sorted (· < ·) l) {b : ℕ}
    (hb : b ∈ l) (hmin : ∀ x ∈ l, b ≤ x) : l.head? = some b := by
  cases l with
  | nil => cases hb
  | cons a t =>
    rcases List.mem_cons.mp hb with rfl | hmem
    · rfl
    · have : a < b := (List.sorted_cons.mp hs).1 b hmem
      have : b ≤ a := hmin a (List.mem_cons_self a t)
      omega

theorem le_getLast?_of_sorted {l : List ℕ} (hs : List.Sorted (· < ·) l) {m : ℕ}
    (hm : l.getLast? = some m) : ∀ x ∈ l, x ≤ m := by
  induction l with
  | nil => intro x hx; cases hx
  | cons b t ih =>
    intro x hx
    cases t with
    | nil =>
      rcases List.mem_singleton.mp hx with rfl
      cases hm
      exact Nat.le_refl _
    | cons c t2 =>
      rw [List.getLast?_cons_cons] at hm
      have hmem : m ∈ c :: t2 := by
        have := List.mem_getLast?_eq_getLast (l := c :: t2) hm
        exact this.choose_spec ▸ List.getLast_mem this.choose
      rcases List.mem_cons.mp hx with rfl | hx2
      · exact Nat.le_of_lt ((List.sorted_cons.mp hs).1 m hmem)
      · exact ih (List.sorted_cons.mp hs).2 hm x hx2

theorem findPrevKf_eq_of (kfs : List ℕ) (i a : ℕ) (hs : List.Sorted (· < ·) kfs)
    (ha : a ∈ kfs) (hai : a < i) (hmax : ∀ k ∈ kfs, k < i → k ≤ a) :
    findPrevKf kfs i = some a := by
  unfold findPrevKf
  apply sorted_getLast?_of_max (hs.filter _)
  · exact List.mem_filter.mpr ⟨ha, by simpa using hai⟩
  · intro x hx
    have := List.mem_filter.mp hx
    exact hmax x this.1 (by simpa using this.2)

theorem findNextKf_eq_of (kfs : List ℕ) (i b : ℕ) (hs : List.Sorted (· < ·) kfs)
    (hb : b ∈ kfs) (hbi : i < b) (hmin : ∀ k ∈ kfs, i < k → b ≤ k) :
    findNextKf kfs i = some b := by
  unfold findNextKf
  apply sorted_head?_of_min (hs.filter _)
  · exact List.mem_filter.mpr ⟨hb, by simpa using hbi⟩
  · intro x hx
    have := List.mem_filter.mp hx
    exact hmin x this.1 (by simpa using this.2)

theorem two_mem_one_lt_length {α : Type} {l : List α} {a b : α}
    (ha : a ∈ l) (hb : b ∈ l) (hab : a ≠ b) : 1 < l.length := by
  cases l with
  | nil => cases ha
  | cons x t =>
    cases t with
    | nil =>
      rcases List.mem_singleton.mp ha with rfl
      rcases List.mem_singleton.mp hb with rfl
      exact absurd rfl hab
    | cons y t2 => simp [Nat.lt_add_of_pos_left]

theorem getD_map_center (kfs : List ℕ) (arr : List (Option (List ℚ)))
    (tr fw fh : ℚ) (i : ℕ) (w : List ℚ)
    (h : (interpolatePass kfs arr).getD i none = some w) :
    (densify kfs arr tr fw fh).getD i none = some w := by
  unfold densify
  generalize interpolatePass kfs arr = l at h ⊢
  induction l generalizing i with
  | nil => simp at h
  | cons e t ih =>
    cases i with
    | zero => cases e <;> simp_all
    | succ i =>
      simp only [List.map_cons, List.getD_cons_succ] at h ⊢
      exact ih i h

theorem findPrevKf_eq_none (kfs : List ℕ) (i : ℕ) (h : ∀ k ∈ kfs, ¬k < i) :
    findPrevKf kfs i = none := by
  unfold findPrevKf
  rw [List.filter_eq_nil_iff.mpr (by simpa using h)]
  rfl

theorem findNextKf_eq_none (kfs : List ℕ) (i : ℕ) (h : ∀ k ∈ kfs, ¬i < k) :
    findNextKf kfs i = none := by
  unfold findNextKf
  rw [List.filter_eq_nil_iff.mpr (by simpa using h)]
  rfl

theorem head?_le_of_sorted {l : List ℕ} (hs : List.Sorted (· < ·) l) {m : ℕ}
    (hm : l.head? = some m) : ∀ x ∈ l, m ≤ x := by
  cases l with
  | nil => intro x hx; cases hx
  | cons a t =>
    cases hm
    intro x hx
    rcases List.mem_cons.mp hx with rfl | hx2
    · exact Nat.le_refl _
    · exact Nat.le_of_lt ((List.sorted_cons.mp hs).1 x hx2)

theorem mem_of_getLast?_eq {l : List ℕ} {m : ℕ} (hm : l.getLast? = some m) :
    m ∈ l := by
  obtain ⟨h, rfl⟩ := List.mem_getLast?_eq_getLast (x := m) hm
  exact List.getLast_mem h

theorem lerpWin_eq_shift (x : ℚ) :
    ∀ Wa Wb : List ℚ, lerpWin Wa Wb x =
      List.zipWith (fun p q => ((pyInt (p + (q - p) * x) : ℤ) : ℚ)) Wa Wb := by
  intro Wa
  induction Wa with
  | nil => intro Wb; rfl
  | cons p t ih =>
    intro Wb
    cases Wb with
    | nil => rfl
    | cons q t2 =>
      simp only [lerpWin] at ih ⊢
      rw [List.zipWith_cons_cons, List.zipWith_cons_cons, ih t2]
      congr 3
      ring

/-- Claim C10: the interpolation pass writes only to frame indices whose entry
is absent; every index already holding a computed window holds exactly that
same window, unchanged, in the dense output sequence. -/
theorem interpolation_preserves_keyframes (kfs : List ℕ)
    (arr : List (Option (List ℚ))) (tr fw fh : ℚ) (i : ℕ) (w : List ℚ)
    (h : arr.getD i none = some w) :
    (densify kfs arr tr fw fh).getD i none = some w := by
  apply getD_map_center
  unfold interpolatePass
  split
  · exact foldl_interp_preserves_some _ _ _ _ _ h
  · exact h

/-- Witness for C10 at a concrete sparse sequence. -/
theorem interpolation_preserves_keyframes_witness :
    ([some [(1 : ℚ), 2, 3, 4], none, some [5, 6, 7, 8]] : List (Option (List ℚ))).getD 0 none
        = some [1, 2, 3, 4] ∧
      (densify [0, 2] [some [(1 : ℚ), 2, 3, 4], none, some [5, 6, 7, 8]] (9/16) 100 100).getD 0 none
        = some [1, 2, 3, 4] :=
  ⟨rfl, interpolation_preserves_keyframes [0, 2] _ (9/16) 100 100 0 [1, 2, 3, 4] rfl⟩

/-- Claim C4 (amended): for consecutive keyframes a < b with computed windows
W_a and W_b, the dense sequence assigns to index a + k (0 < k < b - a) the
window int(W_a + (W_b - W_a) * k/(b - a)) componentwise, with Python int()
truncation toward zero rather than rounding to nearest. -/
theorem interpolation_exact_trunc (kfs : List ℕ) (arr : List (Option (List ℚ)))
    (tr fw fh : ℚ) (a b k : ℕ) (Wa Wb : List ℚ)
    (hs : List.Sorted (· < ·) kfs) (ha : a ∈ kfs) (hb : b ∈ kfs)
    (hcons : ∀ j ∈ kfs, ¬(a < j ∧ j < b))
    (hWa : arr.getD a none = some Wa) (hWb : arr.getD b none = some Wb)
    (hk0 : 0 < k) (hkb : a + k < b)
    (hnone : arr.getD (a + k) none = none) :
    (densify kfs arr tr fw fh).getD (a + k) none =
      some (List.zipWith
        (fun p q => ((pyInt (p + (q - p) * ((k : ℚ) / ((b : ℚ) - (a : ℚ)))) : ℤ) : ℚ))
        Wa Wb) := by
  have hblen : b < arr.length := getD_some_lt_length _ _ _ hWb
  have hi : a + k < arr.length := Nat.lt_trans hkb hblen
  have hgate : 1 < (kfs.filter fun j => (arr.getD j none).isSome).length := by
    apply two_mem_one_lt_length (a := a) (b := b)
    · exact List.mem_filter.mpr ⟨ha, by rw [hWa]; rfl⟩
    · exact List.mem_filter.mpr ⟨hb, by rw [hWb]; rfl⟩
    · omega
  apply getD_map_center
  unfold interpolatePass
  rw [if_pos hgate, interpLoop_getD_eq kfs arr (a + k) hi]
  have hSlen : ((List.range (a + k)).foldl (interpStep kfs) arr).length = arr.length :=
    foldl_interp_length _ _ _
  have hSi : ((List.range (a + k)).foldl (interpStep kfs) arr).getD (a + k) none = none := by
    rw [foldl_interp_getD_of_notMem _ _ _ _ (by simp)]
    exact hnone
  have hSa : ((List.range (a + k)).foldl (interpStep kfs) arr).getD a none = some Wa :=
    foldl_interp_preserves_some _ _ _ _ _ hWa
  have hSb : ((List.range (a + k)).foldl (interpStep kfs) arr).getD b none = some Wb := by
    rw [foldl_interp_getD_of_notMem _ _ _ _ (by simp; omega)]
    exact hWb
  have hprev : findPrevKf kfs (a + k) = some a := by
    apply findPrevKf_eq_of _ _ _ hs ha (by omega)
    intro j hj hji
    by_contra hc
    exact hcons j hj ⟨by omega, by omega⟩
  have hnext : findNextKf kfs (a + k) = some b := by
    apply findNextKf_eq_of _ _ _ hs hb hkb
    intro j hj hji
    by_contra hc
    exact hcons j hj ⟨by omega, by omega⟩
  generalize hS : (List.range (a + k)).foldl (interpStep kfs) arr = S at hSlen hSi hSa hSb ⊢
  unfold interpStep
  rw [hSi, hprev, hnext]
  simp only [hSa, hSb]
  rw [getD_set_self_of_lt _ _ _ (by rw [hSlen]; exact hi)]
  rw [lerpWin_eq_shift]
  congr 1
  have hx : (((a + k : ℕ) : ℚ) - (a : ℚ)) / ((b : ℚ) - (a : ℚ))
      = (k : ℚ) / ((b : ℚ) - (a : ℚ)) := by
    push_cast
    ring
  rw [hx]

/-- Witness for C4 at keyframes 0 and 3 with k = 2. -/
theorem interpolation_exact_trunc_witness :
    ([some [(0 : ℚ), 0, 0, 0], none, none, some [3, 3, 9, 9]] :
        List (Option (List ℚ))).getD 2 none = none ∧
      (densify [0, 3] [some [(0 : ℚ), 0, 0, 0], none, none, some [3, 3, 9, 9]]
          (9/16) 100 100).getD (0 + 2) none =
        some (List.zipWith
          (fun p q => ((pyInt (p + (q - p) * ((2 : ℚ) / ((3 : ℚ) - (0 : ℚ)))) : ℤ) : ℚ))
          [0, 0, 0, 0] [3, 3, 9, 9]) :=
  ⟨rfl, interpolation_exact_trunc [0, 3] _ (9/16) 100 100 0 3 2 [0, 0, 0, 0] [3, 3, 9, 9]
    (by decide) (by decide) (by decide) (by decide) rfl rfl (by decide) (by decide) rfl⟩

/-- Counterexample for C4 as stated: with W_a = [0,0,0,0], W_b = [1,1,1,1],
a = 0, b = 3, k = 2, the code stores int(2/3) = 0 in every component while
round(0 + (1 - 0) * 2/3) = 1; the dense sequence does not match the rounded
formula. -/
theorem interpolation_round_cex :
    (densify [0, 3] [some [(0 : ℚ), 0, 0, 0], none, none, some [1, 1, 1, 1]]
        (9/16) 100 100).getD 2 none = some [0, 0, 0, 0] ∧
      (List.zipWith (fun p q : ℚ => ((round (p + (q - p) * ((2 : ℚ) / 3)) : ℤ) : ℚ))
        [0, 0, 0, 0] [1, 1, 1, 1]) = [1, 1, 1, 1] ∧
      ([0, 0, 0, 0] : List ℚ) ≠ [1, 1, 1, 1] := by
  refine ⟨?_, ?_, by simp⟩
  · norm_num [densify, interpolatePass, interpStep, findPrevKf, findNextKf, lerpWin,
      List.range_succ, List.filter, pyInt]
  · norm_num [round_eq]

/-- Claim C5 (amended): when at least two keyframes produced windows and, in
particular, the first and the last keyframe each produced one, every frame
index before the first keyframe holds exactly the first keyframe's window and
every frame index after the last keyframe holds exactly the last keyframe's
window. -/
theorem edge_extension_two_results (kfs : List ℕ) (arr : List (Option (List ℚ)))
    (tr fw fh : ℚ) (k0 kl : ℕ) (Wf Wl : List ℚ)
    (hs : List.Sorted (· < ·) kfs)
    (hhead : kfs.head? = some k0) (hlast : kfs.getLast? = some kl)
    (hne : k0 ≠ kl)
    (hWf : arr.getD k0 none = some Wf) (hWl : arr.getD kl none = some Wl)
    (honly : ∀ j, j ∉ kfs → arr.getD j none = none) :
    (∀ i, i < k0 → i < arr.length →
        (densify kfs arr tr fw fh).getD i none = some Wf) ∧
      (∀ i, kl < i → i < arr.length →
        (densify kfs arr tr fw fh).getD i none = some Wl) := by
  have hk0mem : k0 ∈ kfs := List.mem_of_mem_head? (by rw [hhead]; rfl)
  have hklmem : kl ∈ kfs := mem_of_getLast?_eq hlast
  have hge : ∀ x ∈ kfs, k0 ≤ x := head?_le_of_sorted hs hhead
  have hle : ∀ x ∈ kfs, x ≤ kl := le_getLast?_of_sorted hs hlast
  have hgate : 1 < (kfs.filter fun j => (arr.getD j none).isSome).length := by
    apply two_mem_one_lt_length (a := k0) (b := kl) _ _ hne
    · exact List.mem_filter.mpr ⟨hk0mem, by rw [hWf]; rfl⟩
    · exact List.mem_filter.mpr ⟨hklmem, by rw [hWl]; rfl⟩
  constructor
  · intro i hik0 hilen
    have hnotmem : i ∉ kfs := fun h => by have := hge i h; omega
    apply getD_map_center
    unfold interpolatePass
    rw [if_pos hgate, interpLoop_getD_eq kfs arr i hilen]
    have hSlen : ((List.range i).foldl (interpStep kfs) arr).length = arr.length :=
      foldl_interp_length _ _ _
    have hSi : ((List.range i).foldl (interpStep kfs) arr).getD i none = none := by
      rw [foldl_interp_getD_of_notMem _ _ _ _ (by simp)]
      exact honly i hnotmem
    have hSk0 : ((List.range i).foldl (interpStep kfs) arr).getD k0 none = some Wf := by
      rw [foldl_interp_getD_of_notMem _ _ _ _ (by simp; omega)]
      exact hWf
    have hprev : findPrevKf kfs i = none :=
      findPrevKf_eq_none _ _ (fun j hj => by have := hge j hj; omega)
    have hnext : findNextKf kfs i = some k0 :=
      findNextKf_eq_of _ _ _ hs hk0mem hik0 (fun j hj _ => hge j hj)
    generalize hS : (List.range i).foldl (interpStep kfs) arr = S at hSlen hSi hSk0 ⊢
    unfold interpStep
    rw [hSi, hprev, hnext]
    rw [getD_set_self_of_lt _ _ _ (by rw [hSlen]; exact hilen)]
    exact hSk0
  · intro i hkli hilen
    have hnotmem : i ∉ kfs := fun h => by have := hle i h; omega
    apply getD_map_center
    unfold interpolatePass
    rw [if_pos hgate, interpLoop_getD_eq kfs arr i hilen]
    have hSlen : ((List.range i).foldl (interpStep kfs) arr).length = arr.length :=
      foldl_interp_length _ _ _
    have hSi : ((List.range i).foldl (interpStep kfs) arr).getD i none = none := by
      rw [foldl_interp_getD_of_notMem _ _ _ _ (by simp)]
      exact honly i hnotmem
    have hSkl : ((List.range i).foldl (interpStep kfs) arr).getD kl none = some Wl :=
      foldl_interp_preserves_some _ _ _ _ _ hWl
    have hprev : findPrevKf kfs i = some kl :=
      findPrevKf_eq_of _ _ _ hs hklmem hkli (fun j hj _ => hle j hj)
    have hnext : findNextKf kfs i = none :=
      findNextKf_eq_none _ _ (fun j hj => by have := hle j hj; omega)
    generalize hS : (List.range i).foldl (interpStep kfs) arr = S at hSlen hSi hSkl ⊢
    unfold interpStep
    rw [hSi, hprev, hnext]
    rw [getD_set_self_of_lt _ _ _ (by rw [hSlen]; exact hilen)]
    exact hSkl

/-- Witness for C5 at keyframes [1, 2] inside a 4-frame sequence. -/
theorem edge_extension_two_results_witness :
    (densify [1, 2] [none, some [(7 : ℚ), 7, 7, 7], some [8, 8, 8, 8], none]
        (9/16) 100 100).getD 0 none = some [7, 7, 7, 7] ∧
      (densify [1, 2] [none, some [(7 : ℚ), 7, 7, 7], some [8, 8, 8, 8], none]
        (9/16) 100 100).getD 3 none = some [8, 8, 8, 8] := by
  have h := edge_extension_two_results [1, 2]
    [none, some [(7 : ℚ), 7, 7, 7], some [8, 8, 8, 8], none] (9/16) 100 100
    1 2 [7, 7, 7, 7] [8, 8, 8, 8] (by decide) rfl rfl (by decide) rfl rfl
    (fun j hj => by
      match j with
      | 0 => rfl
      | 1 => exact absurd (by decide) hj
      | 2 => exact absurd (by decide) hj
      | 3 => rfl
      | n + 4 => exact List.getD_eq_default _ _ (by simp)
      )
  exact ⟨h.1 0 (by decide) (by decide), h.2 3 (by decide) (by decide)⟩

/-- Counterexample for C5 as stated: with a single keyframe result (keyframe 0
holds [5,5,5,5], keyframe 1 holds nothing) the interpolation loop is skipped
entirely (it requires more than one keyframe window), so frame 1 -- which lies
after the last keyframe with a result -- receives the centered fallback crop
[22,0,56,100] instead of [5,5,5,5]. -/
theorem edge_extension_single_result_cex :
    (densify [0, 1] [some [(5 : ℚ), 5, 5, 5], none] (9/16) 100 100).getD 1 none
        = some [22, 0, 56, 100] ∧
      ([22, 0, 56, 100] : List ℚ) ≠ [5, 5, 5, 5] := by
  constructor
  · norm_num [densify, interpolatePass, interpStep, findPrevKf, findNextKf,
      List.filter, get_center_crop, pyInt]
  · simp

theorem pyInt_of_nonneg {q : ℚ} (h : 0 ≤ q) : pyInt q = ⌊q⌋ := if_pos h

/-- Claim C9: for history_weight in [0, 1] and two crop windows inside the
frame bounds with width and height at least 1, the window produced by
smooth_transition (componentwise blend prev * hw + current * (1 - hw),
truncated to int) also lies inside the frame bounds with width and height at
least 1. -/
theorem smooth_transition_preserves_validity
    (hw px py pw ph cx cy cw ch fw fh : ℚ)
    (hhw0 : 0 ≤ hw) (hhw1 : hw ≤ 1)
    (hpx : 0 ≤ px) (hpy : 0 ≤ py) (hpw : 1 ≤ pw) (hph : 1 ≤ ph)
    (hpr : px + pw ≤ fw) (hpb : py + ph ≤ fh)
    (hcx : 0 ≤ cx) (hcy : 0 ≤ cy) (hcw : 1 ≤ cw) (hch : 1 ≤ ch)
    (hcr : cx + cw ≤ fw) (hcb : cy + ch ≤ fh) :
    ∀ out, smooth_transition hw [px, py, pw, ph] [cx, cy, cw, ch] = some out →
      validate_crop_window out fw fh = true ∧
        1 ≤ out.getD 2 0 ∧ 1 ≤ out.getD 3 0 := by
  intro out hout
  simp only [smooth_transition, Option.some.injEq] at hout
  subst hout
  have hw2 : 0 ≤ 1 - hw := by linarith
  have hbx0 : (0 : ℚ) ≤ px * hw + cx * (1 - hw) :=
    add_nonneg (mul_nonneg hpx hhw0) (mul_nonneg hcx hw2)
  have hby0 : (0 : ℚ) ≤ py * hw + cy * (1 - hw) :=
    add_nonneg (mul_nonneg hpy hhw0) (mul_nonneg hcy hw2)
  have hbw1 : (1 : ℚ) ≤ pw * hw + cw * (1 - hw) := by nlinarith
  have hbh1 : (1 : ℚ) ≤ ph * hw + ch * (1 - hw) := by nlinarith
  have hbw0 : (0 : ℚ) ≤ pw * hw + cw * (1 - hw) := by linarith
  have hbh0 : (0 : ℚ) ≤ ph * hw + ch * (1 - hw) := by linarith
  have hsumw : (px * hw + cx * (1 - hw)) + (pw * hw + cw * (1 - hw)) ≤ fw := by nlinarith
  have hsumh : (py * hw + cy * (1 - hw)) + (ph * hw + ch * (1 - hw)) ≤ fh := by nlinarith
  rw [pyInt_of_nonneg hbx0, pyInt_of_nonneg hby0, pyInt_of_nonneg hbw0,
    pyInt_of_nonneg hbh0]
  refine ⟨?_, ?_, ?_⟩
  · simp only [validate_crop_window, Bool.and_eq_true, decide_eq_true_eq]
    refine ⟨⟨⟨⟨⟨?_, ?_⟩, ?_⟩, ?_⟩, ?_⟩, ?_⟩
    · exact_mod_cast lt_of_lt_of_le Int.zero_lt_one (Int.le_floor.mpr (by exact_mod_cast hbw1))
    · exact_mod_cast lt_of_lt_of_le Int.zero_lt_one (Int.le_floor.mpr (by exact_mod_cast hbh1))
    · exact_mod_cast Int.floor_nonneg.mpr hbx0
    · exact_mod_cast Int.floor_nonneg.mpr hby0
    · calc ((⌊px * hw + cx * (1 - hw)⌋ : ℚ) + (⌊pw * hw + cw * (1 - hw)⌋ : ℚ))
          ≤ (px * hw + cx * (1 - hw)) + (pw * hw + cw * (1 - hw)) :=
            add_le_add (Int.floor_le _) (Int.floor_le _)
        _ ≤ fw := hsumw
    · calc ((⌊py * hw + cy * (1 - hw)⌋ : ℚ) + (⌊ph * hw + ch * (1 - hw)⌋ : ℚ))
          ≤ (py * hw + cy * (1 - hw)) + (ph * hw + ch * (1 - hw)) :=
            add_le_add (Int.floor_le _) (Int.floor_le _)
        _ ≤ fh := hsumh
  · have h1 : (1 : ℚ) ≤ (⌊pw * hw + cw * (1 - hw)⌋ : ℚ) := by
      have := Int.le_floor.mpr (show ((1 : ℤ) : ℚ) ≤ pw * hw + cw * (1 - hw) by
        push_cast; linarith)
      exact_mod_cast this
    simpa using h1
  · have h1 : (1 : ℚ) ≤ (⌊ph * hw + ch * (1 - hw)⌋ : ℚ) := by
      have := Int.le_floor.mpr (show ((1 : ℤ) : ℚ) ≤ ph * hw + ch * (1 - hw) by
        push_cast; linarith)
      exact_mod_cast this
    simpa using h1

/-- Witness for C9 at concrete windows inside a 20x20 frame. -/
theorem smooth_transition_preserves_validity_witness :
    smooth_transition (7/10) [(0 : ℚ), 0, 10, 10] [4, 4, 8, 8] = some [1, 1, 9, 9] ∧
      validate_crop_window [(1 : ℚ), 1, 9, 9] 20 20 = true := by
  have hsm : smooth_transition (7/10) [(0 : ℚ), 0, 10, 10] [4, 4, 8, 8]
      = some [1, 1, 9, 9] := by
    norm_num [smooth_transition, pyInt]
  exact ⟨hsm, (smooth_transition_preserves_validity (7/10) 0 0 10 10 4 4 8 8 20 20
    (by norm_num) (by norm_num) (by norm_num) (by norm_num) (by norm_num) (by norm_num)
    (by norm_num) (by norm_num) (by norm_num) (by norm_num) (by norm_num) (by norm_num)
    (by norm_num) (by norm_num) [1, 1, 9, 9] hsm).1⟩

/-- Claim C3 (amended): get_center_crop truncates with Python int() rather
than rounding: at 1920x1080 with target ratio 9/16 it yields x = 656, y = 0,
width = 607 = int(1080 * 9/16) (not round(...) = 608), height = 1080; in
general, whenever the ratio-derived width int(frame_height * target_ratio)
does not exceed the frame width, the synthesizer sets crop_width =
int(crop_height * target_ratio). -/
theorem get_center_crop_truncates :
    get_center_crop (9/16) 1920 1080 = [656, 0, 607, 1080] ∧
      ∀ tr fw fh : ℚ, ((pyInt (fh * tr) : ℤ) : ℚ) ≤ fw →
        get_center_crop tr fw fh =
          [((pyInt ((fw - ((pyInt (fh * tr) : ℤ) : ℚ)) / 2) : ℤ) : ℚ), 0,
            ((pyInt (fh * tr) : ℤ) : ℚ), fh] := by
  constructor
  · norm_num [get_center_crop, pyInt]
  · intro tr fw fh hle
    simp only [get_center_crop, if_neg (not_lt.mpr hle)]
    have hy : pyInt ((fh - fh) / 2) = 0 := by norm_num [pyInt]
    rw [hy]
    norm_num

/-- Witness for the general part of C3 at the concrete 1920x1080 frame. -/
theorem get_center_crop_truncates_witness :
    ((pyInt ((1080 : ℚ) * (9/16)) : ℤ) : ℚ) ≤ 1920 ∧
      get_center_crop (9/16) 1920 1080 = [656, 0, 607, 1080] :=
  ⟨by norm_num [pyInt], get_center_crop_truncates.1⟩

/-- Counterexample for C3 as stated: round(1080 * 9/16) = 608, but the code
truncates, so get_center_crop returns width 607, not 608. -/
theorem get_center_crop_round_cex :
    get_center_crop (9/16) 1920 1080 = [656, 0, 607, 1080] ∧
      (round ((1080 : ℚ) * (9/16)) : ℤ) = 608 ∧
      get_center_crop (9/16) 1920 1080 ≠ [656, 0, 608, 1080] := by
  refine ⟨by norm_num [get_center_crop, pyInt], by norm_num [round_eq], ?_⟩
  rw [show get_center_crop (9/16) 1920 1080 = [656, 0, 607, 1080] by
    norm_num [get_center_crop, pyInt]]
  simp

/-- Counterexample for C2 as stated: calculate([], 0, 0) returns [0, 0, 0, 1],
whose width is 0, not strictly positive. -/
theorem calculate_zero_dims_cex :
    (calculate initCalculator (.list []) 0 0).1 = [0, 0, 0, 1] ∧
      ¬(0 < (calculate initCalculator (.list []) 0 0).1.getD 2 0) := by
  have h : (calculate initCalculator (.list []) 0 0).1 = [0, 0, 0, 1] := by
    norm_num [calculate, initCalculator, get_center_crop, pyInt]
  refine ⟨h, ?_⟩
  rw [h]
  norm_num

/-- Claim C2 (amended): calculate([], 0, 0) returns [0, 0, 0, 1]: the height
is strictly positive but the width is int(1 * 9/16) = 0.  No division by zero
occurs: the only division (the ratio-adjustment branch) is guarded by
int(max(1, 0) * 9/16) > max(1, 0), which is false. -/
theorem calculate_zero_dims_amended :
    (calculate initCalculator (.list []) 0 0).1 = [0, 0, 0, 1] ∧
      0 < ((calculate initCalculator (.list []) 0 0).1.getD 3 0) ∧
      ¬((max 1 (0 : ℚ)) < ((pyInt ((max 1 (0 : ℚ)) * (9/16)) : ℤ) : ℚ)) := by
  have h : (calculate initCalculator (.list []) 0 0).1 = [0, 0, 0, 1] := by
    norm_num [calculate, initCalculator, get_center_crop, pyInt]
  refine ⟨h, ?_, by norm_num [pyInt]⟩
  rw [h]
  norm_num

/-- Counterexample for C1 as stated: with frame dimensions 1 and 1 (both at
least 1), an empty object list and a fresh engine state, calculate returns
the centered crop [0, 0, 0, 1], whose width is 0, violating the validity
invariant. -/
theorem calculate_validity_cex :
    (calculate initCalculator (.list []) 1 1).1 = [0, 0, 0, 1] ∧
      validate_crop_window [0, 0, 0, 1] 1 1 = false := by
  constructor
  · norm_num [calculate, initCalculator, validateObjects, coerceObjects,
      get_center_crop, pyInt]
  · norm_num [validate_crop_window]

/-- Claim C1 (amended): for frame_width and frame_height at least 1, any
objects argument and any engine state whose stored previous crop window (if
present) satisfies the validity invariant for this frame and for which the
centered fallback crop of the frame itself satisfies the invariant, calculate
never raises and returns a window satisfying the validity invariant of
section 4.6. -/
theorem calculate_returns_valid_window (c : CropCalculator) (objects : PyVal)
    (fw fh : ℚ) (h1 : 1 ≤ fw) (h2 : 1 ≤ fh)
    (hcc : validate_crop_window (get_center_crop c.target_ratio fw fh) fw fh = true)
    (hprev : ∀ pc, c.prev_crop_window = some pc →
      validate_crop_window pc fw fh = true) :
    validate_crop_window (calculate c objects fw fh).1 fw fh = true := by
  unfold calculate
  rw [if_neg (by push_neg; constructor <;> linarith)]
  split
  · split
    · split
      · next pc heq _ =>
        exact hprev pc heq
      · exact hcc
    · exact hcc
  · simp only [calc_with_objects]
    split
    · next hval => exact hval
    · exact hcc

/-- Witness for C1 at a 1920x1080 frame with an empty object list. -/
theorem calculate_returns_valid_window_witness :
    validate_crop_window (get_center_crop initCalculator.target_ratio 1920 1080)
        1920 1080 = true ∧
      validate_crop_window (calculate initCalculator (.list []) 1920 1080).1
        1920 1080 = true := by
  have hcc : validate_crop_window (get_center_crop initCalculator.target_ratio 1920 1080)
      1920 1080 = true := by
    norm_num [initCalculator, get_center_crop, validate_crop_window, pyInt]
  exact ⟨hcc, calculate_returns_valid_window initCalculator (.list []) 1920 1080
    (by norm_num) (by norm_num) hcc
    (fun pc h => by simp [initCalculator] at h)⟩

/-- Claim C8: on a calculate call with valid frame dimensions where the
validated object list is empty (and, with frame=None, no saliency point
exists), the engine returns the stored previous crop window when it is a
4-field window with positive width and height, and the centered crop of the
frame otherwise. -/
theorem empty_objects_reuse_prev (c : CropCalculator) (objects : PyVal)
    (fw fh : ℚ) (h1 : 0 < fw) (h2 : 0 < fh)
    (hv : validateObjects objects = []) :
    (∀ pc, c.prev_crop_window = some pc →
        pc.length = 4 → 0 < pc.getD 2 0 → 0 < pc.getD 3 0 →
        (calculate c objects fw fh).1 = pc) ∧
      ((∀ pc, c.prev_crop_window = some pc →
          ¬(pc.length = 4 ∧ 0 < pc.getD 2 0 ∧ 0 < pc.getD 3 0)) →
        (calculate c objects fw fh).1 = get_center_crop c.target_ratio fw fh) := by
  unfold calculate
  rw [if_neg (by push_neg; constructor <;> linarith), hv]
  constructor
  · intro pc hpc h4 hwpos hhpos
    rw [hpc]
    show (if pc.length = 4 ∧ 0 < pc.getD 2 0 ∧ 0 < pc.getD 3 0 then (pc, c)
      else (get_center_crop c.target_ratio fw fh, c)).1 = pc
    rw [if_pos (⟨h4, hwpos, hhpos⟩ : pc.length = 4 ∧ 0 < pc.getD 2 0 ∧ 0 < pc.getD 3 0)]
  · intro hno
    cases hpc : c.prev_crop_window with
    | none => rfl
    | some pc =>
      show (if pc.length = 4 ∧ 0 < pc.getD 2 0 ∧ 0 < pc.getD 3 0 then (pc, c)
        else (get_center_crop c.target_ratio fw fh, c)).1 = _
      rw [if_neg (hno pc hpc)]

/-- Witness for C8: a stored window [10, 20, 30, 40] is returned unchanged on
an empty-validation call. -/
theorem empty_objects_reuse_prev_witness :
    validateObjects PyVal.nil = [] ∧
      (calculate witnessCalc PyVal.nil 100 200).1 = [10, 20, 30, 40] := by
  refine ⟨rfl, ?_⟩
  exact (empty_objects_reuse_prev witnessCalc PyVal.nil 100 200
      (by norm_num) (by norm_num) rfl).1 [10, 20, 30, 40] rfl rfl
    (by norm_num [List.getD]) (by norm_num [List.getD])

theorem validObject_iff (o : PyVal) : validObject o = true ↔ SpecValidObject o := by
  constructor
  · intro h
    unfold validObject at h
    split at h
    · next d =>
      split at h
      · next x y w hh heq =>
        split at h
        · next xq yq wq hq hx hy hw2 hh2 =>
          simp only [Bool.and_eq_true, decide_eq_true_eq] at h
          cases x with
          | num xv =>
            cases y with
            | num yv =>
              cases w with
              | num wv =>
                cases hh with
                | num hv =>
                  exact ⟨d, xv, yv, wv, hv, rfl, heq, by
                    simp only [asNum, Option.some.injEq] at hw2
                    exact hw2 ▸ h.1, by
                    simp only [asNum, Option.some.injEq] at hh2
                    exact hh2 ▸ h.2⟩
                | _ => simp [asNum] at hh2
              | _ => simp [asNum] at hw2
            | _ => simp [asNum] at hy
          | _ => simp [asNum] at hx
        · exact absurd h (by simp)
      · exact absurd h (by simp)
    · exact absurd h (by simp)
  · rintro ⟨d, x, y, w, h, rfl, hfind, hw, hh⟩
    show (match dictFind d "box" with
      | some (PyVal.list [x, y, w, h]) =>
        match asNum x, asNum y, asNum w, asNum h with
        | some _, some _, some wq, some hq => decide (0 < wq) && decide (0 < hq)
        | _, _, _, _ => false
      | _ => false) = true
    rw [hfind]
    simp [asNum, hw, hh]

/-- Claim C6: the validation step keeps exactly the input entries whose box is
a 4-element list of numbers with positive width and positive height (in input
order, as a sublist); a mapping input is treated as the list of its values,
any other wrong-typed input as the empty collection; validation is a total
function, so it never raises. -/
theorem validation_characterization :
    (∀ v o, o ∈ validateObjects v ↔ o ∈ coerceObjects v ∧ SpecValidObject o) ∧
      (∀ v, (validateObjects v).Sublist (coerceObjects v)) ∧
      (∀ d, coerceObjects (.dict d) = d.map (·.2)) ∧
      (∀ l, coerceObjects (.list l) = l) ∧
      (∀ q, coerceObjects (.num q) = []) ∧
      (∀ s, coerceObjects (.str s) = []) ∧
      coerceObjects .nil = [] := by
  refine ⟨?_, ?_, fun _ => rfl, fun _ => rfl, fun _ => rfl, fun _ => rfl, rfl⟩
  · intro v o
    unfold validateObjects
    rw [List.mem_filter, validObject_iff]
  · intro v
    exact List.filter_sublist _

/-- Claim C7: for a validated object (4-number box with positive width and
height) on a frame of positive dimensions, the computed importance equals
class_weight(class_name) * 1.5 * confidence * (size_weight * (box_area /
frame_area) * 1.2 + center_weight * (1 - dist(object_center, frame_center) /
dist(frame_center, corner))), with the default weight for an unmapped
class_name; and any exception while scoring one object yields the fallback
importance 0.1 instead of aborting the frame. -/
theorem importance_formula_and_fallback :
    (∀ (c : CropCalculator) (obj : PyVal) (fw fh x y w h conf d : ℚ) (s : String),
      pyIndex obj "box" = .ok (.list [.num x, .num y, .num w, .num h]) →
      pyGet obj "class_name" (.str "default") = .str s →
      pyGet obj "confidence" (.num 1) = .num conf →
      lookupStr c.class_weights "default" = some d →
      0 < w → 0 < h → 0 < fw → 0 < fh →
      calculate_importance c obj fw fh =
        .ok ((((lookupStr c.class_weights s).getD d : ℚ) : ℝ) * (3/2) * (conf : ℝ) *
          ((c.size_weight : ℝ) * (((w * h : ℚ) : ℝ) / ((fw * fh : ℚ) : ℝ)) * (6/5) +
            (c.center_weight : ℝ) *
              (1 - euclid (x + w / 2, y + h / 2) (fw / 2, fh / 2) /
                euclid (fw / 2, fh / 2) (0, 0))))) ∧
      (∀ (c : CropCalculator) (obj : PyVal) (fw fh : ℚ),
        calculate_importance c obj fw fh = .error () →
        importance_or_fallback c obj fw fh = 1 / 10) := by
  constructor
  · intro c obj fw fh x y w h conf d s hbox hcn hconf hd hw hh hfw hfh
    unfold calculate_importance
    rw [hbox, hcn, hconf]
    unfold classWeightOf
    rw [hd]
    simp only [boxNums, asNum]
    rw [if_neg (by
      intro hz
      exact absurd hz (mul_ne_zero (ne_of_gt hfw) (ne_of_gt hfh)))]
    have hdist : Real.sqrt (((fw : ℝ) / 2 - ((x + w / 2 : ℚ) : ℝ)) ^ 2 +
          ((fh : ℝ) / 2 - ((y + h / 2 : ℚ) : ℝ)) ^ 2)
        = euclid (x + w / 2, y + h / 2) (fw / 2, fh / 2) := by
      unfold euclid
      congr 1
      push_cast
      ring
    have hmax : Real.sqrt (((fw : ℝ) / 2) ^ 2 + ((fh : ℝ) / 2) ^ 2)
        = euclid (fw / 2, fh / 2) (0, 0) := by
      unfold euclid
      congr 1
      push_cast
      ring
    rw [hdist, hmax]
  · intro c obj fw fh herr
    unfold importance_or_fallback
    rw [herr]

/-- Witness for C7: the spec section 8 example object (box [800,400,200,300],
class person, confidence 0.9) on a 1920x1080 frame. -/
theorem importance_formula_and_fallback_witness :
    pyIndex sampleObject "box" = .ok (.list [.num 800, .num 400, .num 200, .num 300]) ∧
      calculate_importance initCalculator sampleObject 1920 1080 =
        .ok ((((lookupStr initCalculator.class_weights "person").getD (1/2) : ℚ) : ℝ) *
            (3/2) * ((9/10 : ℚ) : ℝ) *
          ((initCalculator.size_weight : ℝ) *
              (((200 * 300 : ℚ) : ℝ) / ((1920 * 1080 : ℚ) : ℝ)) * (6/5) +
            (initCalculator.center_weight : ℝ) *
              (1 - euclid (800 + 200 / 2, 400 + 300 / 2) (1920 / 2, 1080 / 2) /
                euclid (1920 / 2, 1080 / 2) (0, 0)))) :=
  ⟨rfl, importance_formula_and_fallback.1 initCalculator sampleObject
    1920 1080 800 400 200 300 (9/10) (1/2) "person" rfl rfl rfl rfl
    (by norm_num) (by norm_num) (by norm_num) (by norm_num)⟩

end Reframer
